import Mathlib

/-!
Verification of the Bhoolamind memory pipeline.

Shallow embedding of the retrieval, context-assembly and storage code of
the repository (`modules/memory_injector.py`, `modules/rag_engine.py`,
`modules/database.py`, `modules/ai_delete_protection.py`).  Python floats
are modelled as rationals, SQLite tables as Lean lists in rowid order, and
Python dictionaries as structures with `Option` fields for keys that a
given code path does not set.  Functions that the source wraps in a
catch-all `try/except` returning a default are total Lean functions
returning that default.
-/

namespace Bhoolamind

/-! ## String helpers mirroring Python / SQLite primitives -/

/-- Python slicing `s[:n]`: the first `n` characters (code points) of `s`. -/
def pySlice (s : String) (n : Nat) : String := String.mk (s.data.take n)

/-- Python `str.lower()` / SQLite `LOWER(...)`: character-wise lowercasing. -/
def lowerStr (s : String) : String := String.mk (s.data.map Char.toLower)

/-- Does `hay` start with `needle` (character lists)? -/
def startsWithChars : List Char → List Char → Bool
  | [], _ => true
  | _ :: _, [] => false
  | a :: as, b :: bs => a == b && startsWithChars as bs

/-- Does `hay` contain `needle` as a contiguous substring (character lists)?
Models Python `needle in hay` and SQLite `hay LIKE '%needle%'` for needles
without wildcard characters. -/
def containsChars (hay needle : List Char) : Bool :=
  match hay with
  | [] => needle.isEmpty
  | c :: rest => startsWithChars needle (c :: rest) || containsChars rest needle

/-- String-level substring test. -/
def strContains (hay needle : String) : Bool := containsChars hay.data needle.data

/-- Strict lexicographic order on character lists by code point; this is how
SQLite's default BINARY collation compares TEXT values such as the ISO-8601
timestamps stored by the repository. -/
def charsLt : List Char → List Char → Bool
  | [], [] => false
  | [], _ :: _ => true
  | _ :: _, [] => false
  | a :: as, b :: bs =>
    if a.toNat < b.toNat then true
    else if b.toNat < a.toNat then false
    else charsLt as bs

/-- `a <= b` for TEXT timestamps, as evaluated by SQLite (`timestamp >= ?`). -/
def tsLe (a b : String) : Bool := !(charsLt b.data a.data)

/-- Python `str.split()` with no argument: split on runs of whitespace,
dropping empty pieces.  `acc` holds the characters of the current word in
reverse. -/
def pySplitAux : List Char → List Char → List String
  | [], acc => if acc.isEmpty then [] else [String.mk acc.reverse]
  | c :: cs, acc =>
    if c.isWhitespace then
      if acc.isEmpty then pySplitAux cs []
      else String.mk acc.reverse :: pySplitAux cs []
    else pySplitAux cs (c :: acc)

/-- Python `str.split()`. -/
def pySplit (s : String) : List String := pySplitAux s.data []

/-! ## Retrieval hits

`MemoryInjector` passes its hits around as Python dictionaries.  The three
producing paths (`find_similar_memories`, `find_emotional_memories`,
`_fallback_memory_search`) set different key sets; a key a path does not
set is `none` here.  In particular the emotion path never sets
`similarity`. -/

/-- One retrieval hit, as built by `modules/memory_injector.py`. -/
structure Mem where
  text : String
  emotion : Option String := none
  mood : Option String := none
  tags : Option String := none
  timestamp : Option String := none
  intensity : Option Int := none
  bitWorthy : Option Bool := none
  similarity : Option ℚ := none
  relevanceType : String
  deriving DecidableEq

/-- The deduplication loop of `inject_context_memories`
(memory_injector.py lines 307-313): walk the merged list, keep a hit only
if its exact `text` has not been seen before.  `seen` models the Python
`seen_texts` set. -/
def dedupAux (seen : List String) : List Mem → List Mem
  | [] => []
  | m :: ms =>
    if m.text ∈ seen then dedupAux seen ms
    else m :: dedupAux (m.text :: seen) ms

/-- Deduplicate a merged hit list by exact text equality, first occurrence
wins (memory_injector.py lines 307-313). -/
def dedupByText (ms : List Mem) : List Mem := dedupAux [] ms

/-- The ranking key of `inject_context_memories` line 316:
`x.get('similarity', 0)` — a hit without a similarity gets `0`. -/
def sortKey (m : Mem) : ℚ := m.similarity.getD 0

/-- Python `list.sort(key=..., reverse=True)` is a stable descending sort
by key; `List.insertionSort` with the non-strict "key not smaller"
relation is exactly such a stable descending sort. -/
def rankMems (ms : List Mem) : List Mem :=
  List.insertionSort (fun a b => sortKey b ≤ sortKey a) ms

/-- Merge step of `inject_context_memories` (lines 304-317): concatenate
topical results then emotional results, deduplicate by text, sort by the
similarity key descending, truncate to `maxMemories`. -/
def mergeAndRank (topical emotional : List Mem) (maxMemories : Nat) : List Mem :=
  (rankMems (dedupByText (topical ++ emotional))).take maxMemories

/-! ## Lemmas about the deduplication loop -/

theorem countP_dedupAux_of_seen (t : String) :
    ∀ (ms : List Mem) (seen : List String), t ∈ seen →
      (dedupAux seen ms).countP (fun m => m.text == t) = 0 := by
  intro ms
  induction ms with
  | nil => intro seen _; rfl
  | cons m ms ih =>
    intro seen ht
    simp only [dedupAux]
    by_cases hm : m.text ∈ seen
    · rw [if_pos hm]
      exact ih seen ht
    · rw [if_neg hm]
      have hmt : ¬ m.text = t := fun h => hm (h ▸ ht)
      simp only [List.countP_cons, beq_iff_eq, hmt, if_false, add_zero]
      exact ih (m.text :: seen) (List.mem_cons_of_mem _ ht)

theorem countP_dedupAux_of_not_seen (t : String) :
    ∀ (ms : List Mem) (seen : List String), t ∉ seen →
      0 < ms.countP (fun m => m.text == t) →
      (dedupAux seen ms).countP (fun m => m.text == t) = 1 := by
  intro ms
  induction ms with
  | nil => intro seen _ h; simp at h
  | cons m ms ih =>
    intro seen hts hpos
    simp only [dedupAux]
    by_cases hm : m.text ∈ seen
    · rw [if_pos hm]
      have hmt : ¬ m.text = t := fun h => hts (h ▸ hm)
      have hpos' : 0 < ms.countP (fun m => m.text == t) := by
        simpa [List.countP_cons, hmt] using hpos
      exact ih seen hts hpos'
    · rw [if_neg hm]
      by_cases hmt : m.text = t
      · subst hmt
        have h0 : (dedupAux (m.text :: seen) ms).countP (fun x => x.text == m.text) = 0 :=
          countP_dedupAux_of_seen m.text ms (m.text :: seen) (List.mem_cons_self _ _)
        simp [List.countP_cons, h0]
      · have hts' : t ∉ m.text :: seen := by
          intro h
          rcases List.mem_cons.mp h with h | h
          · exact hmt h.symm
          · exact hts h
        have hpos' : 0 < ms.countP (fun m => m.text == t) := by
          simpa [List.countP_cons, hmt] using hpos
        simp only [List.countP_cons, beq_iff_eq, hmt, if_false, add_zero]
        exact ih (m.text :: seen) hts' hpos'

theorem find?_dedupAux (t : String) :
    ∀ (ms : List Mem) (seen : List String), t ∉ seen →
      (dedupAux seen ms).find? (fun m => m.text == t) = ms.find? (fun m => m.text == t) := by
  intro ms
  induction ms with
  | nil => intro seen _; rfl
  | cons m ms ih =>
    intro seen hts
    simp only [dedupAux]
    by_cases hm : m.text ∈ seen
    · rw [if_pos hm]
      have hb : (m.text == t) = false := by
        simp only [beq_eq_false_iff_ne, ne_eq]
        exact fun h => hts (h ▸ hm)
      simp only [List.find?_cons, hb]
      exact ih seen hts
    · rw [if_neg hm]
      by_cases hmt : m.text = t
      · have hb : (m.text == t) = true := by simp [hmt]
        simp only [List.find?_cons, hb]
      · have hts' : t ∉ m.text :: seen := by
          intro h
          rcases List.mem_cons.mp h with h | h
          · exact hmt h.symm
          · exact hts h
        have hb : (m.text == t) = false := by simp [hmt]
        simp only [List.find?_cons, hb]
        exact ih (m.text :: seen) hts'

theorem mem_of_mem_dedupAux {m : Mem} :
    ∀ {ms : List Mem} {seen : List String}, m ∈ dedupAux seen ms → m ∈ ms := by
  intro ms
  induction ms with
  | nil => intro seen h; exact absurd h (List.not_mem_nil m)
  | cons x ms ih =>
    intro seen h
    simp only [dedupAux] at h
    by_cases hx : x.text ∈ seen
    · rw [if_pos hx] at h
      exact List.mem_cons_of_mem _ (ih h)
    · rw [if_neg hx] at h
      rcases List.mem_cons.mp h with h | h
      · exact h ▸ List.mem_cons_self _ _
      · exact List.mem_cons_of_mem _ (ih h)

theorem rankMems_pairwise (ms : List Mem) :
    (rankMems ms).Pairwise (fun a b => sortKey b ≤ sortKey a) := by
  haveI : IsTotal Mem (fun a b => sortKey b ≤ sortKey a) :=
    ⟨fun a b => le_total (sortKey b) (sortKey a)⟩
  haveI : IsTrans Mem (fun a b => sortKey b ≤ sortKey a) :=
    ⟨fun _ _ _ hab hbc => le_trans hbc hab⟩
  exact List.sorted_insertionSort _ ms

theorem sorted_filter_partition :
    ∀ (l : List Mem), l.Pairwise (fun a b => sortKey b ≤ sortKey a) →
      l = l.filter (fun m => decide (0 < sortKey m))
          ++ l.filter (fun m => decide (sortKey m ≤ 0)) := by
  intro l
  induction l with
  | nil => intro _; rfl
  | cons m l ih =>
    intro h
    rw [List.pairwise_cons] at h
    obtain ⟨hm, hl⟩ := h
    by_cases hp : 0 < sortKey m
    · rw [List.filter_cons_of_pos (by simpa using hp),
        List.filter_cons_of_neg (by simpa using not_le.mpr hp), List.cons_append, ← ih hl]
    · have hple : sortKey m ≤ 0 := not_lt.mp hp
      have hzero : ∀ b ∈ l, sortKey b ≤ 0 := fun b hb => le_trans (hm b hb) hple
      rw [List.filter_cons_of_neg (by simpa using hp),
        List.filter_cons_of_pos (by simpa using hple)]
      have h1 : l.filter (fun m => decide (0 < sortKey m)) = [] := by
        rw [List.filter_eq_nil_iff]
        intro a ha
        simpa using not_lt.mpr (hzero a ha)
      have h2 : l.filter (fun m => decide (sortKey m ≤ 0)) = l := by
        rw [List.filter_eq_self]
        intro a ha
        simpa using hzero a ha
      rw [h1, h2]
      rfl

/-! ## Claim C1: deduplication of the merged retrieval lists -/

/-- C1: when both retrieval paths return a hit with the same text, the
merged list of `inject_context_memories` keeps exactly one hit with that
text (the count is taken after the ranking sort, which permutes the
deduplicated list), and the retained hit is the first topical one — the
embedding-path result — because topical results come first in the merge
order of line 305. -/
theorem merged_list_dedupes_by_text (topical emotional : List Mem) (t : String)
    (h1 : 0 < topical.countP (fun m => m.text == t))
    (h2 : 0 < emotional.countP (fun m => m.text == t)) :
    (rankMems (dedupByText (topical ++ emotional))).countP (fun m => m.text == t) = 1 ∧
    (∀ k : Nat, (mergeAndRank topical emotional k).countP (fun m => m.text == t) ≤ 1) ∧
    (dedupByText (topical ++ emotional)).find? (fun m => m.text == t)
      = topical.find? (fun m => m.text == t) := by
  have hcount :
      (rankMems (dedupByText (topical ++ emotional))).countP (fun m => m.text == t) = 1 := by
    have hperm := List.perm_insertionSort (fun a b => sortKey b ≤ sortKey a)
      (dedupByText (topical ++ emotional))
    rw [rankMems, hperm.countP_eq, dedupByText]
    apply countP_dedupAux_of_not_seen
    · exact List.not_mem_nil t
    · rw [List.countP_append]
      omega
  refine ⟨hcount, ?_, ?_⟩
  · intro k
    calc (mergeAndRank topical emotional k).countP (fun m => m.text == t)
        ≤ (rankMems (dedupByText (topical ++ emotional))).countP (fun m => m.text == t) :=
          (List.take_sublist _ _).countP_le _
      _ = 1 := hcount
  · rw [dedupByText, find?_dedupAux t _ [] (List.not_mem_nil t), List.find?_append]
    obtain ⟨x, hxmem, hx⟩ := List.countP_pos_iff.mp h1
    cases hfind : topical.find? (fun m => m.text == t) with
    | none =>
      rw [List.find?_eq_none] at hfind
      exact absurd hx (hfind x hxmem)
    | some y => rfl

/-- Witness for C1 at a concrete pair of one-element result lists sharing
the text "dup". -/
theorem merged_list_dedupes_by_text_witness :
    0 < List.countP (fun m => m.text == "dup")
        [({ text := "dup", similarity := some (mkRat 9 10), relevanceType := "semantic" } : Mem)] ∧
    0 < List.countP (fun m => m.text == "dup")
        [({ text := "dup", relevanceType := "emotional" } : Mem)] ∧
    ((rankMems (dedupByText
        ([({ text := "dup", similarity := some (mkRat 9 10), relevanceType := "semantic" } : Mem)]
          ++ [({ text := "dup", relevanceType := "emotional" } : Mem)]))).countP
            (fun m => m.text == "dup") = 1 ∧
      (∀ k : Nat, (mergeAndRank
          [({ text := "dup", similarity := some (mkRat 9 10), relevanceType := "semantic" } : Mem)]
          [({ text := "dup", relevanceType := "emotional" } : Mem)] k).countP
            (fun m => m.text == "dup") ≤ 1) ∧
      (dedupByText
        ([({ text := "dup", similarity := some (mkRat 9 10), relevanceType := "semantic" } : Mem)]
          ++ [({ text := "dup", relevanceType := "emotional" } : Mem)])).find?
            (fun m => m.text == "dup")
        = List.find? (fun m => m.text == "dup")
            [({ text := "dup", similarity := some (mkRat 9 10), relevanceType := "semantic" } : Mem)]) :=
  ⟨by decide, by decide,
    merged_list_dedupes_by_text
      [{ text := "dup", similarity := some (mkRat 9 10), relevanceType := "semantic" }]
      [{ text := "dup", relevanceType := "emotional" }] "dup" (by decide) (by decide)⟩

/-! ## Claim C2: similarity computed from the raw vector distance -/

/-- Similarity computation of the semantic retrieval path
(memory_injector.py lines 141-146): `similarity = 1.0 - distance`; when an
emotion filter is given and the stored emotion differs, `similarity *= 0.7`.
The code performs no clamping of either the input distance or the result. -/
def computeSimilarity (distance : ℚ) (emotionMismatch : Bool) : ℚ :=
  if emotionMismatch then (1 - distance) * (7 / 10) else 1 - distance

/-- C2 counterexample: for the raw distance -1 (allowed by the claim, which
quantifies over negative distances) the computed similarity is 2, which is
not in [0,1]; the code never clamps it before thresholding or ranking. -/
theorem similarity_not_clamped_cex :
    computeSimilarity (-1) false = 2 ∧ ¬ computeSimilarity (-1) false ≤ 1 := by
  constructor <;> norm_num [computeSimilarity]

/-- C2 amended: the computed similarity (with or without the 0.7 emotion
penalty) lies in [0,1] provided the raw distance lies in [0,1]; nothing
bounds it for out-of-range distances. -/
theorem similarity_bounded_for_bounded_distance (distance : ℚ) (emotionMismatch : Bool)
    (h0 : 0 ≤ distance) (h1 : distance ≤ 1) :
    0 ≤ computeSimilarity distance emotionMismatch ∧
      computeSimilarity distance emotionMismatch ≤ 1 := by
  cases emotionMismatch <;> simp only [computeSimilarity, if_true, if_false, Bool.false_eq_true] <;>
    constructor <;> nlinarith

/-- Witness for C2 amended at distance 0 without the emotion penalty. -/
theorem similarity_bounded_witness :
    0 ≤ (0 : ℚ) ∧ (0 : ℚ) ≤ 1 ∧
      (0 ≤ computeSimilarity 0 false ∧ computeSimilarity 0 false ≤ 1) :=
  ⟨by decide, by decide,
    similarity_bounded_for_bounded_distance 0 false (by decide) (by decide)⟩

/-! ## Claim C3: ranking score of records without a similarity -/

/-- C3 counterexample: `inject_context_memories` ranks a hit without a
similarity with the synthetic key 0 (`x.get('similarity', 0)`), not 0.5:
with keyword scores 9/10 and 2/5 in the merged list, the emotional hit
sorts strictly last, whereas a 0.5 synthetic score would interleave it
between the two scored hits. -/
theorem unscored_rank_score_cex :
    sortKey { text := "e", relevanceType := "emotional" } = 0 ∧
    sortKey { text := "e", relevanceType := "emotional" } ≠ mkRat 1 2 ∧
    rankMems
        [{ text := "a", similarity := some (mkRat 9 10), relevanceType := "keyword" },
         { text := "b", similarity := some (mkRat 2 5), relevanceType := "keyword" },
         { text := "e", relevanceType := "emotional" }]
      = [{ text := "a", similarity := some (mkRat 9 10), relevanceType := "keyword" },
         { text := "b", similarity := some (mkRat 2 5), relevanceType := "keyword" },
         { text := "e", relevanceType := "emotional" }] := by
  refine ⟨rfl, by decide, by decide⟩

/-- C3 amended: every hit without a similarity gets the fixed synthetic
ranking key 0, and in the ranked list every positively scored hit precedes
every hit with key ≤ 0 — so unscored (emotion-path) hits sort at the very
end, after all positively scored hits, rather than interleaving. -/
theorem unscored_records_rank_last (ms : List Mem) :
    (∀ m : Mem, m.similarity = none → sortKey m = 0) ∧
    rankMems ms
      = (rankMems ms).filter (fun m => decide (0 < sortKey m))
        ++ (rankMems ms).filter (fun m => decide (sortKey m ≤ 0)) :=
  ⟨fun m hm => by simp [sortKey, hm], sorted_filter_partition _ (rankMems_pairwise ms)⟩

/-! ## Claim C5: character budget of the assembled context prompt -/

/-- BhoolaRAGEngine.generate_context_prompt (rag_engine.py lines 242-315),
collapsed to its only reachable behavior.  The try body calls
`self.memory_injector.get_humor_patterns(limit=3)` at line 262, but
`MemoryInjector` defines no such method (nor `get_recent_emotions`, line
263; neither name is defined anywhere in the repository, and the engine
constructs a plain `MemoryInjector` with no subclassing or patching), so
every call raises AttributeError there, before any context section is
built; the catch-all at lines 313-315 then returns the raw `query`
unchanged.  In particular the budget truncation at lines 306-308 never
executes, and `max_context_length` is never applied. -/
def generateContextPrompt (query : String) (_maxContextLength : Nat) : String := query

/-- C5 counterexample: with a 5-character budget, a 7-character query comes
back verbatim — 7 characters, exceeding the budget; nothing is truncated
and no entry is omitted, because the assembly code is unreachable and the
catch-all returns the raw query. -/
theorem context_budget_not_enforced_cex :
    generateContextPrompt "abcdefg" 5 = "abcdefg" ∧
    (generateContextPrompt "abcdefg" 5).length = 7 ∧ 5 < 7 :=
  ⟨rfl, rfl, by decide⟩

/-- C5 amended: `generate_context_prompt` enforces no character budget at
all — every call raises AttributeError at line 262 (MemoryInjector has no
`get_humor_patterns`) and the catch-all returns the raw query unchanged,
so for every budget there is a query whose returned text exceeds it; no
entry-boundary omission or any other truncation ever happens. -/
theorem context_prompt_returns_query_unbounded (n : Nat) :
    (∀ q : String, generateContextPrompt q n = q) ∧
    ∃ q : String, n < (generateContextPrompt q n).length := by
  refine ⟨fun q => rfl, ⟨String.mk (List.replicate (n + 1) 'a'), ?_⟩⟩
  show n < (List.replicate (n + 1) 'a').length
  rw [List.length_replicate]
  omega

/-! ## Record store and delete protection

The SQLite `interactions` table of `modules/database.py` (lines 23-36) in
rowid order.  The `created_at` column (DEFAULT CURRENT_TIMESTAMP, never
read back by the modelled code paths) is omitted.  `id` is the
AUTOINCREMENT primary key; `nextId` is the next value it will assign. -/

/-- One row of the `interactions` table. -/
structure InteractionRow where
  id : Nat
  text : String
  source : String
  tags : Option String
  emotion : Option String
  mood : Option String
  intensity : Int
  bitWorthy : Bool
  timestamp : String
  deriving DecidableEq

/-- One row of the `deleted_interactions` tombstone table
(ai_delete_protection.py lines 80-89).  The Python code stores
`str(interaction_data)` — the stringified full row tuple — in
`original_data` and recovers it with `eval` on restore; since that
round-trip is the identity on these field types, the field holds the row
itself here. -/
structure DeletedRow where
  id : Nat
  originalText : String
  deletionReason : String
  deletionTimestamp : String
  originalData : InteractionRow
  backupLocation : String
  deriving DecidableEq

/-- The database state: live `interactions`, the `deleted_interactions`
tombstone table, and the next AUTOINCREMENT id. -/
structure DBState where
  interactions : List InteractionRow
  deleted : List DeletedRow
  nextId : Nat
  deriving DecidableEq

/-- BhoolamindDB.add_interaction (database.py lines 100-116): one INSERT
with a store-assigned id, no validation of any argument, returning
`lastrowid`.  `now` stands for `datetime.now().isoformat()`. -/
def addInteraction (s : DBState) (text : String) (source : String)
    (tags : Option String) (emotion : Option String) (mood : Option String)
    (intensity : Int) (bitWorthy : Bool) (now : String) : Nat × DBState :=
  let row : InteractionRow :=
    { id := s.nextId, text := text, source := source, tags := tags,
      emotion := emotion, mood := mood, intensity := intensity,
      bitWorthy := bitWorthy, timestamp := now }
  (s.nextId,
    { s with interactions := s.interactions ++ [row], nextId := s.nextId + 1 })

/-- The text of the deletion-log row created by STEP 3 of
`safe_delete_interaction` (ai_delete_protection.py lines 65-77). -/
def deletionLogText (interactionId : Nat) (reason : String) (originalText : String) : String :=
  "DELETION LOG: Deleted interaction " ++ toString interactionId ++ ". Reason: "
    ++ reason ++ ". Original: " ++ pySlice originalText 100 ++ "..."

/-- AIDeleteProtection.safe_delete_interaction (ai_delete_protection.py
lines 30-114).  The filesystem backup of STEP 1 is outside the store and
not modelled.  Looks the row up by id; if absent, returns False and leaves
the store unchanged (the `if not interaction_data` branch, lines 60-63).
Otherwise inserts a deletion-log row into `interactions`, inserts a
tombstone into `deleted_interactions`, deletes every live row with the
target id, and returns True.  `nowIso` stands for
`datetime.now().isoformat()` and `nowFmt` for
`datetime.now().strftime("%Y%m%d_%H%M%S")`. -/
def safeDeleteInteraction (s : DBState) (interactionId : Nat) (reason : String)
    (nowIso nowFmt : String) : Bool × DBState :=
  match s.interactions.find? (fun r => r.id == interactionId) with
  | none => (false, s)
  | some row =>
    let logRow : InteractionRow :=
      { id := s.nextId,
        text := deletionLogText interactionId reason row.text,
        source := "ai_delete_protection",
        tags := some "deletion_log,ai_safety,backup",
        emotion := some "protective",
        mood := none,
        intensity := 8,
        bitWorthy := false,
        timestamp := nowIso }
    let tomb : DeletedRow :=
      { id := interactionId,
        originalText := row.text,
        deletionReason := reason,
        deletionTimestamp := nowIso,
        originalData := row,
        backupLocation := "backups/pre_delete/pre_delete_" ++ nowFmt ++ ".db" }
    (true,
      { interactions := (s.interactions ++ [logRow]).filter (fun r => !(r.id == interactionId)),
        deleted := s.deleted ++ [tomb],
        nextId := s.nextId + 1 })

/-- AIDeleteProtection.restore_deleted_interaction (ai_delete_protection.py
lines 137-195).  Looks the tombstone up by id; if absent, returns False.
Otherwise re-inserts fields 1-8 of the stored original row
(text, source, tags, emotion, mood, intensity, bit_worthy, timestamp) under
a fresh id, inserts a restoration-log row, deletes the tombstone, and
returns True. -/
def restoreDeletedInteraction (s : DBState) (interactionId : Nat) (nowIso : String) :
    Bool × DBState :=
  match s.deleted.find? (fun d => d.id == interactionId) with
  | none => (false, s)
  | some tomb =>
    let restored : InteractionRow :=
      { id := s.nextId,
        text := tomb.originalData.text,
        source := tomb.originalData.source,
        tags := tomb.originalData.tags,
        emotion := tomb.originalData.emotion,
        mood := tomb.originalData.mood,
        intensity := tomb.originalData.intensity,
        bitWorthy := tomb.originalData.bitWorthy,
        timestamp := tomb.originalData.timestamp }
    let logRow : InteractionRow :=
      { id := s.nextId + 1,
        text := "RESTORATION LOG: Restored interaction " ++ toString interactionId
          ++ ". Originally deleted: " ++ tomb.deletionReason,
        source := "ai_delete_protection",
        tags := some "restoration_log,ai_safety,recovery",
        emotion := some "recovered",
        mood := none,
        intensity := 7,
        bitWorthy := false,
        timestamp := nowIso }
    (true,
      { interactions := s.interactions ++ [restored, logRow],
        deleted := s.deleted.filter (fun d => !(d.id == interactionId)),
        nextId := s.nextId + 2 })

theorem find?_id_filter_ne (l : List InteractionRow) (i : Nat) :
    (l.filter (fun r => !(r.id == i))).find? (fun r => r.id == i) = none := by
  rw [List.find?_eq_none]
  intro x hx
  have h := (List.mem_filter.mp hx).2
  simpa using h

/-! ## Claim C7: behaviour of soft delete on missing and repeated ids -/

/-- C7 counterexample: soft delete of the unknown id 9999 on a fresh store
does not raise `NotFoundError` — the source has no such exception type and
wraps the whole body in a catch-all returning a bool — it returns False and
leaves the store unchanged. -/
theorem soft_delete_missing_id_cex :
    safeDeleteInteraction { interactions := [], deleted := [], nextId := 1 } 9999 "AI request"
        "2025-01-01T00:00:00" "20250101_000000"
      = (false, { interactions := [], deleted := [], nextId := 1 }) := rfl

/-- C7 amended: soft delete of an absent id returns False (never raising);
on a present id it returns True, and the second call on the resulting state
returns False because every live row with that id was removed. -/
theorem soft_delete_true_then_false (s : DBState) (i : Nat) (r : InteractionRow)
    (reason1 reason2 nowIso1 nowFmt1 nowIso2 nowFmt2 : String)
    (hfind : s.interactions.find? (fun x => x.id == i) = some r) :
    (safeDeleteInteraction s i reason1 nowIso1 nowFmt1).1 = true ∧
    (safeDeleteInteraction (safeDeleteInteraction s i reason1 nowIso1 nowFmt1).2 i reason2
        nowIso2 nowFmt2).1 = false ∧
    (∀ s' : DBState, s'.interactions.find? (fun x => x.id == i) = none →
      safeDeleteInteraction s' i reason2 nowIso2 nowFmt2 = (false, s')) := by
  refine ⟨?_, ?_, ?_⟩
  · simp only [safeDeleteInteraction, hfind]
  · simp only [safeDeleteInteraction, hfind, find?_id_filter_ne]
  · intro s' h
    simp only [safeDeleteInteraction, h]

/-- A concrete live row used by the witnesses below. -/
def sampleRow : InteractionRow :=
  { id := 1, text := "hello world", source := "voice", tags := some "humor",
    emotion := some "amused", mood := some "high", intensity := 3, bitWorthy := true,
    timestamp := "2025-01-01T00:00:00" }

/-- A concrete one-row store used by the witnesses below. -/
def sampleDB : DBState :=
  { interactions := [sampleRow], deleted := [], nextId := 2 }

/-- Witness for C7 amended at the concrete one-row store holding id 1. -/
theorem soft_delete_true_then_false_witness :
    (sampleDB.interactions.find? (fun x => x.id == 1) = some sampleRow) ∧
    ((safeDeleteInteraction sampleDB 1 "cleanup" "2025-01-02T00:00:00"
        "20250102_000000").1 = true ∧
      (safeDeleteInteraction (safeDeleteInteraction sampleDB 1 "cleanup" "2025-01-02T00:00:00"
        "20250102_000000").2 1 "again" "2025-01-03T00:00:00" "20250103_000000").1 = false ∧
      (∀ s' : DBState, s'.interactions.find? (fun x => x.id == 1) = none →
        safeDeleteInteraction s' 1 "again" "2025-01-03T00:00:00" "20250103_000000"
          = (false, s'))) :=
  ⟨by decide,
    soft_delete_true_then_false sampleDB 1 sampleRow "cleanup" "again" "2025-01-02T00:00:00"
      "20250102_000000" "2025-01-03T00:00:00" "20250103_000000" (by decide)⟩

/-! ## Claim C6: soft-delete/restore round-trip -/

/-- C6: soft delete of a live row followed by restore of the same id
succeeds and yields a live row whose text, emotion and tags equal the
original ones.  The second hypothesis says the tombstone table held no
earlier entry under that id (the restore lookup takes the first match); the
restored row carries a fresh id, as the claim permits. -/
theorem soft_delete_restore_round_trip (s : DBState) (i : Nat) (r : InteractionRow)
    (reason nowIso nowFmt nowIso2 : String)
    (hfind : s.interactions.find? (fun x => x.id == i) = some r)
    (hdel : s.deleted.find? (fun d => d.id == i) = none) :
    (safeDeleteInteraction s i reason nowIso nowFmt).1 = true ∧
    (restoreDeletedInteraction (safeDeleteInteraction s i reason nowIso nowFmt).2 i
        nowIso2).1 = true ∧
    ∃ x ∈ (restoreDeletedInteraction (safeDeleteInteraction s i reason nowIso nowFmt).2 i
        nowIso2).2.interactions,
      x.text = r.text ∧ x.emotion = r.emotion ∧ x.tags = r.tags := by
  refine ⟨?_, ?_, ?_⟩
  · simp [safeDeleteInteraction, hfind]
  · simp [safeDeleteInteraction, hfind, restoreDeletedInteraction, List.find?_append, hdel,
      Option.none_or, List.find?_cons, beq_self_eq_true]
  · simp only [safeDeleteInteraction, hfind, restoreDeletedInteraction, List.find?_append, hdel,
      Option.none_or, List.find?_cons, beq_self_eq_true]
    exact ⟨_, List.mem_append_right _ (List.mem_cons_self _ _), rfl, rfl, rfl⟩

/-- Witness for C6 at the concrete one-row store holding id 1. -/
theorem soft_delete_restore_round_trip_witness :
    (sampleDB.interactions.find? (fun x => x.id == 1) = some sampleRow) ∧
    (sampleDB.deleted.find? (fun d => d.id == 1) = none) ∧
    ((safeDeleteInteraction sampleDB 1 "tidy" "2025-02-02T00:00:00"
        "20250202_000000").1 = true ∧
      (restoreDeletedInteraction (safeDeleteInteraction sampleDB 1 "tidy" "2025-02-02T00:00:00"
        "20250202_000000").2 1 "2025-02-03T00:00:00").1 = true ∧
      ∃ x ∈ (restoreDeletedInteraction (safeDeleteInteraction sampleDB 1 "tidy"
        "2025-02-02T00:00:00" "20250202_000000").2 1 "2025-02-03T00:00:00").2.interactions,
        x.text = sampleRow.text ∧ x.emotion = sampleRow.emotion ∧ x.tags = sampleRow.tags) :=
  ⟨by decide, by decide,
    soft_delete_restore_round_trip sampleDB 1 sampleRow "tidy" "2025-02-02T00:00:00"
      "20250202_000000" "2025-02-03T00:00:00" (by decide) (by decide)⟩

/-! ## Claim C9: validation behaviour of the record-store insert -/

/-- C9 counterexample: add_interaction performs no validation at all —
inserting an empty text on a fresh store succeeds with the store-assigned
id 1 instead of failing with ValidationError (the repository defines no
such error and SQLite's NOT NULL accepts the empty string). -/
theorem add_interaction_empty_text_cex :
    addInteraction { interactions := [], deleted := [], nextId := 1 } "" "manual" none none none
        1 false "2025-01-01T00:00:00"
      = (1,
          { interactions :=
              [{ id := 1, text := "", source := "manual", tags := none,
                 emotion := none, mood := none, intensity := 1, bitWorthy := false,
                 timestamp := "2025-01-01T00:00:00" }],
            deleted := [], nextId := 2 }) := rfl

/-- C9 amended: every insert — empty text included — succeeds with the
store-assigned id, appends exactly one row, and the fresh id collides with
no existing row, so a duplicate-key failure is impossible. -/
theorem add_interaction_assigns_fresh_id (s : DBState) (text source : String)
    (tags emotion mood : Option String) (intensity : Int) (bitWorthy : Bool) (now : String)
    (hids : ∀ x ∈ s.interactions, x.id < s.nextId) :
    (addInteraction s text source tags emotion mood intensity bitWorthy now).1 = s.nextId ∧
    (addInteraction s text source tags emotion mood intensity bitWorthy now).2.interactions
      = s.interactions
        ++ [{ id := s.nextId, text := text, source := source, tags := tags,
              emotion := emotion, mood := mood, intensity := intensity,
              bitWorthy := bitWorthy, timestamp := now }] ∧
    ∀ x ∈ s.interactions, x.id ≠ s.nextId :=
  ⟨rfl, rfl, fun x hx => Nat.ne_of_lt (hids x hx)⟩

/-- The empty store with AUTOINCREMENT about to assign 1. -/
def emptyDB : DBState := { interactions := [], deleted := [], nextId := 1 }

/-- Witness for C9 amended on the empty store. -/
theorem add_interaction_assigns_fresh_id_witness :
    (∀ x ∈ emptyDB.interactions, x.id < emptyDB.nextId) ∧
    ((addInteraction emptyDB "hi" "manual" none none none 1 false
        "2025-01-01T00:00:00").1 = emptyDB.nextId ∧
      (addInteraction emptyDB "hi" "manual" none none none 1 false
        "2025-01-01T00:00:00").2.interactions
        = emptyDB.interactions
          ++ [{ id := emptyDB.nextId, text := "hi", source := "manual", tags := none,
                emotion := none, mood := none, intensity := 1, bitWorthy := false,
                timestamp := "2025-01-01T00:00:00" }] ∧
      ∀ x ∈ emptyDB.interactions, x.id ≠ emptyDB.nextId) :=
  ⟨by decide,
    add_interaction_assigns_fresh_id emptyDB "hi" "manual" none none none 1 false
      "2025-01-01T00:00:00" (by decide)⟩

/-! ## Claim C10: the deletion-log side effect of soft delete -/

/-- C10: a successful soft delete is not a pure move.  The resulting live
table equals the old one with every row of the target id removed and one
new deletion-log row appended — source "ai_delete_protection", text
carrying the first 100 characters of the deleted text — stored as an
ordinary interaction and hence visible to every subsequent query over the
live table. -/
theorem soft_delete_inserts_deletion_log (s : DBState) (i : Nat) (r : InteractionRow)
    (reason nowIso nowFmt : String)
    (hfind : s.interactions.find? (fun x => x.id == i) = some r)
    (hids : ∀ x ∈ s.interactions, x.id < s.nextId) :
    (safeDeleteInteraction s i reason nowIso nowFmt).1 = true ∧
    (safeDeleteInteraction s i reason nowIso nowFmt).2.interactions
      = s.interactions.filter (fun x => !(x.id == i))
        ++ [{ id := s.nextId, text := deletionLogText i reason r.text,
              source := "ai_delete_protection",
              tags := some "deletion_log,ai_safety,backup",
              emotion := some "protective", mood := none, intensity := 8,
              bitWorthy := false, timestamp := nowIso }] := by
  have hri : r.id = i := by simpa using List.find?_some hfind
  have hlt : i < s.nextId := hri ▸ hids r (List.mem_of_find?_eq_some hfind)
  have hkeep : (!(s.nextId == i)) = true := by
    simp only [Bool.not_eq_true']
    simpa using Nat.ne_of_gt hlt
  constructor
  · simp [safeDeleteInteraction, hfind]
  · simp only [safeDeleteInteraction, hfind, List.filter_append, List.filter_cons, hkeep,
      if_true, List.filter_nil]

/-- Witness for C10 at the concrete one-row store holding id 1. -/
theorem soft_delete_inserts_deletion_log_witness :
    (sampleDB.interactions.find? (fun x => x.id == 1) = some sampleRow) ∧
    (∀ x ∈ sampleDB.interactions, x.id < sampleDB.nextId) ∧
    ((safeDeleteInteraction sampleDB 1 "AI request" "2025-03-02T00:00:00"
        "20250302_000000").1 = true ∧
      (safeDeleteInteraction sampleDB 1 "AI request" "2025-03-02T00:00:00"
        "20250302_000000").2.interactions
        = sampleDB.interactions.filter (fun x => !(x.id == 1))
          ++ [{ id := sampleDB.nextId,
                text := deletionLogText 1 "AI request" sampleRow.text,
                source := "ai_delete_protection",
                tags := some "deletion_log,ai_safety,backup",
                emotion := some "protective", mood := none, intensity := 8,
                bitWorthy := false, timestamp := "2025-03-02T00:00:00" }]) :=
  ⟨by decide, by decide,
    soft_delete_inserts_deletion_log sampleDB 1 sampleRow "AI request" "2025-03-02T00:00:00"
      "20250302_000000" (by decide) (by decide)⟩

/-! ## Claim C8: idempotence of vector-store ingestion -/

/-- One document of the ChromaDB `bhoola_memories` collection, keeping the
fields the modelled code reads. -/
structure VecEntry where
  docId : String
  text : String
  interactionId : Nat
  deriving DecidableEq

/-- Document id used when storing: add_memory (memory_injector.py line 92)
keys the new vector by the CURRENT wall-clock time formatted
`%Y%m%d_%H%M%S`, not by the record's stored timestamp. -/
def addMemoryDocId (nowFmt : String) (interactionId : Nat) : String :=
  "memory_" ++ nowFmt ++ "_" ++ toString interactionId

/-- Document id probed by the duplicate check: sync_sql_to_vector_db
(line 389) concatenates the record's ISO `timestamp` column verbatim. -/
def syncCheckDocId (timestamp : String) (interactionId : Nat) : String :=
  "memory_" ++ timestamp ++ "_" ++ toString interactionId

/-- add_memory success path (lines 78-102): `collection.add` appends a new
entry under the current-time-derived id. -/
def addMemory (store : List VecEntry) (text : String) (interactionId : Nat)
    (nowFmt : String) : List VecEntry :=
  store ++ [{ docId := addMemoryDocId nowFmt interactionId, text := text,
              interactionId := interactionId }]

/-- One iteration of the sync loop of sync_sql_to_vector_db (lines
385-401): skip the record when an entry under the probe id already exists,
otherwise call add_memory. -/
def syncRow (store : List VecEntry) (row : InteractionRow) (nowFmt : String) :
    List VecEntry :=
  if store.any (fun e => e.docId == syncCheckDocId row.timestamp row.id) then store
  else addMemory store row.text row.id nowFmt

/-- C8 (code bug): syncing the same interaction — id 1, stored timestamp
"2025-07-19T10:00:00" — twice, at 10:00:00 and again at 11:00:00, leaves
TWO vector entries for it.  The duplicate check probes the id
"memory_2025-07-19T10:00:00_1" while add_memory stored the vector under
"memory_20250719_100000_1", so the check never matches what was stored and
the second run adds a second vector; nothing overwrites. -/
theorem sync_readds_same_interaction :
    (syncRow (syncRow []
        { id := 1, text := "hello", source := "manual", tags := none, emotion := none,
          mood := none, intensity := 1, bitWorthy := false,
          timestamp := "2025-07-19T10:00:00" } "20250719_100000")
        { id := 1, text := "hello", source := "manual", tags := none, emotion := none,
          mood := none, intensity := 1, bitWorthy := false,
          timestamp := "2025-07-19T10:00:00" } "20250719_110000").countP
      (fun e => e.interactionId == 1) = 2 := by decide

/-! ## Claim C4: retrieval with the embedding index unavailable -/

/-- `ORDER BY timestamp DESC` over the interactions table, as a stable
descending sort on the TEXT timestamp. -/
def sortRowsByTsDesc (rows : List InteractionRow) : List InteractionRow :=
  List.insertionSort (fun a b => tsLe b.timestamp a.timestamp = true) rows

/-- One SQL row as the hit dictionary built by find_emotional_memories
(memory_injector.py lines 194-205); note that no `similarity` key is set
on this path. -/
def emotionalRowToMem (r : InteractionRow) : Mem :=
  { text := r.text, emotion := r.emotion, mood := r.mood, tags := r.tags,
    timestamp := some r.timestamp, intensity := some r.intensity,
    bitWorthy := some r.bitWorthy, similarity := none,
    relevanceType := "emotional" }

/-- find_emotional_memories (lines 168-211): rows whose emotion or mood
equals the requested label and whose timestamp reaches the cutoff, newest
first, limited. -/
def findEmotionalMemories (db : List InteractionRow) (emotion : String)
    (limit : Nat) (cutoff : String) : List Mem :=
  ((sortRowsByTsDesc (db.filter (fun r =>
      (r.emotion == some emotion || r.mood == some emotion)
        && tsLe cutoff r.timestamp))).take limit).map emotionalRowToMem

/-- Keyword relevance of _fallback_memory_search (lines 255-258): the
fraction of query words occurring as substrings of the lowercased text;
Python evaluates `matches / len(query_words) if query_words else 0`, and
`mkRat` likewise yields 0 on a zero denominator. -/
def keywordRelevance (queryWords : List String) (textLower : String) : ℚ :=
  mkRat (queryWords.countP (fun w => strContains textLower w)) queryWords.length

/-- One SQL row as the fallback hit dictionary (lines 260-270). -/
def keywordRowToMem (queryWords : List String) (r : InteractionRow) : Mem :=
  { text := r.text, emotion := r.emotion, mood := r.mood, tags := r.tags,
    timestamp := some r.timestamp, intensity := some r.intensity,
    bitWorthy := some r.bitWorthy,
    similarity := some (keywordRelevance queryWords (lowerStr r.text)),
    relevanceType := "keyword" }

/-- _fallback_memory_search (lines 213-276): keyword LIKE search against
the record store.  With an empty query word list the generated SQL is
malformed (`WHERE ()`), sqlite raises and the catch-all returns the empty
list — modelled by the empty result.  A given emotion restricts rows to a
matching emotion or mood; rows come back newest first, limited. -/
def fallbackMemorySearch (db : List InteractionRow) (queryText : String)
    (emotion : Option String) (limit : Nat) (cutoff : String) : List Mem :=
  let queryWords := pySplit (lowerStr queryText)
  if queryWords.isEmpty then []
  else
    ((sortRowsByTsDesc (db.filter (fun r =>
        (queryWords.any (fun w => strContains (lowerStr r.text) w))
          && tsLe cutoff r.timestamp
          && (match emotion with
              | none => true
              | some e => r.emotion == some e || r.mood == some e)))).take limit).map
      (keywordRowToMem queryWords)

/-- inject_context_memories (lines 278-326) in the state claim C4 is
about: the embedding model or the vector collection is unavailable, so
find_similar_memories (line 113) immediately delegates to
_fallback_memory_search, called without an emotion filter (line 293).  The
emotion path runs only when a current emotion is given, with half the
memory budget (line 301).  `cutoff30` and `cutoff14` are the 30- and
14-day cutoff timestamps computed from the current time. -/
def injectContextMemoriesNoVector (db : List InteractionRow) (currentText : String)
    (currentEmotion : Option String) (maxMemories : Nat) (cutoff30 cutoff14 : String) :
    List Mem :=
  let topical := fallbackMemorySearch db currentText none maxMemories cutoff30
  let emotional :=
    match currentEmotion with
    | some e => findEmotionalMemories db e (maxMemories / 2) cutoff14
    | none => []
  mergeAndRank topical emotional maxMemories

/-- C4: with the embedding index unavailable, retrieval does not raise —
the pipeline is a total function built from the fallback branches the
source returns through — and every hit of the returned merged list carries
keyword or emotional provenance, i.e. is drawn from the keyword search or
the emotion search, never from the semantic path. -/
theorem no_vector_results_only_keyword_or_emotional (db : List InteractionRow)
    (currentText : String) (currentEmotion : Option String) (maxMemories : Nat)
    (cutoff30 cutoff14 : String) (m : Mem)
    (hm : m ∈ injectContextMemoriesNoVector db currentText currentEmotion maxMemories
      cutoff30 cutoff14) :
    m.relevanceType = "keyword" ∨ m.relevanceType = "emotional" := by
  simp only [injectContextMemoriesNoVector, mergeAndRank, rankMems, dedupByText] at hm
  have h1 := (List.take_sublist _ _).subset hm
  have h2 := (List.perm_insertionSort _ _).subset h1
  have h3 := mem_of_mem_dedupAux h2
  rcases List.mem_append.mp h3 with h | h
  · simp only [fallbackMemorySearch] at h
    by_cases hq : (pySplit (lowerStr currentText)).isEmpty
    · rw [if_pos hq] at h
      exact absurd h (List.not_mem_nil m)
    · rw [if_neg hq] at h
      obtain ⟨r, _, rfl⟩ := List.mem_map.mp h
      exact Or.inl rfl
  · cases currentEmotion with
    | none => exact absurd h (List.not_mem_nil m)
    | some e =>
      simp only [findEmotionalMemories] at h
      obtain ⟨r, _, rfl⟩ := List.mem_map.mp h
      exact Or.inr rfl

/-- Witness for C4: a one-row store queried for "hello" with the vector
stack unavailable returns the keyword hit for that row. -/
theorem no_vector_results_witness :
    (keywordRowToMem (pySplit (lowerStr "hello")) sampleRow
      ∈ injectContextMemoriesNoVector [sampleRow] "hello" none 3
          "2024-12-15T00:00:00" "2024-12-25T00:00:00") ∧
    ((keywordRowToMem (pySplit (lowerStr "hello")) sampleRow).relevanceType = "keyword" ∨
      (keywordRowToMem (pySplit (lowerStr "hello")) sampleRow).relevanceType = "emotional") :=
  ⟨by decide,
    no_vector_results_only_keyword_or_emotional [sampleRow] "hello" none 3
      "2024-12-15T00:00:00" "2024-12-25T00:00:00"
      (keywordRowToMem (pySplit (lowerStr "hello")) sampleRow) (by decide)⟩

end Bhoolamind
